import Mathlib

/-!
Verification development for the domain and SSL certificate expiry monitoring
core of the neural-engineer repository.  The Python sources under
`src/example-projects/domain-check/src/domain_check/` (domain_check.py,
ssl_check.py, notification_handler.py, notification_scheduler.py) and
`src/ai-agents/algo-trader/crypto-bot/src/crypto_bot/enhanced_cached.py` are
shallowly embedded below: pure functions become Lean functions, stateful code
becomes explicit state passing, fallible code returns `Except`, and the
external collaborators (the redis key-value store, DNS and TLS lookups, the
WHOIS service, SMTP) are parameters of the embedding.  Python machine strings
are Lean `String`s; the comma join and split used by the subscription store
are modelled at the `List Char` level so their semantics match Python
(`"".split(",") == [""]`, a single-character separator).
-/

/-- Generic assoc-list update, modelling the external redis `HSET`-style
"set key to value" operation (also reused for the cache backing store):
the key is bound to the new value and any previous binding for it is
dropped.  Only `List.lookup`, emptiness and the key set are observed by the
embedded code, so representing the update as cons-plus-filter is faithful. -/
def alSet {β : Type} (l : List (String × β)) (k : String) (v : β) : List (String × β) :=
  (k, v) :: l.filter (fun p => !(p.1 == k))

theorem alSet_ne_nil {β : Type} (l : List (String × β)) (k : String) (v : β) :
    alSet l k v ≠ [] := by
  simp [alSet]

theorem alSet_lookup_self {β : Type} (l : List (String × β)) (k : String) (v : β) :
    (alSet l k v).lookup k = some v := by
  simp [alSet, List.lookup]

theorem lookup_filter_ne {β : Type} (l : List (String × β)) (k g : String) (h : g ≠ k) :
    (l.filter (fun p => !(p.1 == k))).lookup g = l.lookup g := by
  have hGK : (g == k) = false := beq_eq_false_iff_ne.mpr h
  induction l with
  | nil => rfl
  | cons p es ih =>
    simp only [List.filter]
    by_cases hp : p.1 = k
    · have hp' : (p.1 == k) = true := beq_iff_eq.mpr hp
      have hgp : (g == p.1) = false := by rw [hp]; exact hGK
      simp [hp', List.lookup, hgp, ih]
    · have hp' : (p.1 == k) = false := beq_eq_false_iff_ne.mpr hp
      cases hgp : (g == p.1) with
      | true => simp [hp', List.lookup, hgp]
      | false => simp [hp', List.lookup, hgp, ih]

theorem alSet_lookup_ne {β : Type} (l : List (String × β)) (k g : String) (v : β)
    (h : g ≠ k) : (alSet l k v).lookup g = l.lookup g := by
  have hGK : (g == k) = false := beq_eq_false_iff_ne.mpr h
  simp only [alSet, List.lookup, hGK]
  exact lookup_filter_ne l k g h

/-- Python `str.split` with a one-character separator, at the char-list
level: `splitChar c l` cuts `l` at every occurrence of `c`; the empty
input yields `[[]]`, matching Python where `"".split(",") == [""]`. -/
def splitChar (c : Char) : List Char → List (List Char)
  | [] => [[]]
  | x :: xs =>
    match splitChar c xs with
    | [] => [[]]
    | h :: t => if x = c then [] :: h :: t else (x :: h) :: t

/-- Python `sep.join`, at the char-list level. -/
def joinChar (c : Char) : List (List Char) → List Char
  | [] => []
  | [l] => l
  | l :: l₂ :: ls => l ++ c :: joinChar c (l₂ :: ls)

theorem splitChar_ne_nil (c : Char) (l : List Char) : splitChar c l ≠ [] := by
  induction l with
  | nil => simp [splitChar]
  | cons x xs ih =>
    simp only [splitChar]
    cases h : splitChar c xs with
    | nil => exact absurd h ih
    | cons hd tl =>
      by_cases hx : x = c <;> simp [hx]

theorem splitChar_no_sep (c : Char) (l : List Char) (h : c ∉ l) : splitChar c l = [l] := by
  induction l with
  | nil => rfl
  | cons x xs ih =>
    have hx : ¬ x = c := by
      intro e
      exact h (e ▸ List.mem_cons_self x xs)
    have hxs : c ∉ xs := fun m => h (List.mem_cons_of_mem _ m)
    simp [splitChar, ih hxs, hx]

theorem splitChar_append (c : Char) (l r : List Char) (h : c ∉ l) :
    splitChar c (l ++ c :: r) = l :: splitChar c r := by
  induction l with
  | nil =>
    simp only [List.nil_append, splitChar]
    cases hs : splitChar c r with
    | nil => exact absurd hs (splitChar_ne_nil c r)
    | cons hd tl => simp
  | cons x xs ih =>
    have hx : ¬ x = c := by
      intro e
      exact h (e ▸ List.mem_cons_self x xs)
    have hxs : c ∉ xs := fun m => h (List.mem_cons_of_mem _ m)
    show splitChar c ((x :: xs) ++ c :: r) = (x :: xs) :: splitChar c r
    rw [List.cons_append]
    simp only [splitChar]
    rw [ih hxs]
    simp [hx]

theorem split_join (c : Char) (L : List (List Char)) (hne : L ≠ [])
    (h : ∀ l ∈ L, c ∉ l) : splitChar c (joinChar c L) = L := by
  induction L with
  | nil => exact absurd rfl hne
  | cons l ls ih =>
    cases ls with
    | nil => exact splitChar_no_sep c l (h l (List.mem_cons_self _ _))
    | cons l₂ ls₂ =>
      have hjoin : joinChar c (l :: l₂ :: ls₂) = l ++ c :: joinChar c (l₂ :: ls₂) := rfl
      rw [hjoin, splitChar_append c l _ (h l (List.mem_cons_self _ _)),
        ih (by simp) (fun m hm => h m (List.mem_cons_of_mem _ hm))]

/-- `s.split(",")` on a Lean `String`. -/
def pySplit (s : String) : List String := (splitChar ',' s.data).map String.mk

/-- `",".join(l)` on Lean `String`s. -/
def pyJoinComma (l : List String) : String := String.mk (joinChar ',' (l.map String.data))

theorem pySplit_pyJoinComma (l : List String) (hne : l ≠ [])
    (h : ∀ x ∈ l, ',' ∉ x.data) : pySplit (pyJoinComma l) = l := by
  unfold pySplit pyJoinComma
  have hdata : (String.mk (joinChar ',' (l.map String.data))).data
      = joinChar ',' (l.map String.data) := rfl
  rw [hdata, split_join ',' (l.map String.data) (by simpa using hne)
    (by
      intro cl hm
      obtain ⟨s, hs, rfl⟩ := List.mem_map.mp hm
      exact h s hs)]
  rw [List.map_map]
  have hid : (String.mk ∘ String.data) = fun s : String => s := funext fun s => rfl
  rw [hid]
  exact List.map_id' l

theorem pyJoinComma_ne_empty (l : List String) (hne : l ≠ [])
    (h : ∀ x ∈ l, x.data ≠ []) : (pyJoinComma l).data ≠ [] := by
  cases l with
  | nil => exact absurd rfl hne
  | cons a ls =>
    cases ls with
    | nil => simpa [pyJoinComma, joinChar] using h a (List.mem_cons_self _ _)
    | cons b ls₂ => simp [pyJoinComma, joinChar]

/-- Model of Python `list(set(xs))`: the same members, deduplicated (the
representative order keeps the last occurrence; only membership is ever
observed by the embedded code and the claims). -/
def pyDedup : List String → List String
  | [] => []
  | x :: xs => if x ∈ xs then pyDedup xs else x :: pyDedup xs

theorem mem_pyDedup (x : String) (l : List String) : x ∈ pyDedup l ↔ x ∈ l := by
  induction l with
  | nil => simp [pyDedup]
  | cons a xs ih =>
    by_cases ha : a ∈ xs
    · simp only [pyDedup, if_pos ha, ih, List.mem_cons]
      constructor
      · exact Or.inr
      · rintro (rfl | hx)
        · exact ha
        · exact hx
    · simp [pyDedup, if_neg ha, ih, List.mem_cons]

theorem pyDedup_ne_nil (l : List String) (h : l ≠ []) : pyDedup l ≠ [] := by
  induction l with
  | nil => exact absurd rfl h
  | cons a xs ih =>
    by_cases ha : a ∈ xs
    · simp only [pyDedup, if_pos ha]
      exact ih (List.ne_nil_of_mem ha)
    · simp [pyDedup, if_neg ha]

/-!
Embedding of `domain_check.py`.  Timestamps are integers (seconds); the
Python `timedelta.days` of a difference is a floored division by 86400,
written `Int.fdiv`.  The external collaborators of `check_domains` (the
`tldextract` registrable-domain extraction, `is_valid_domain` DNS probing,
the WHOIS lookup of `check_domain_expiry` after its JSON round trip, the
`strptime`/`dateutil` date parsers and the clock) are fields of `CheckEnv`.
-/

/-- A `DomainRecord` dictionary as appended to the result list by
`check_domains`. -/
structure DomainRecord where
  domain : String
  expiry_date : String
  days_left : Int
  registrar : String
  owner : String
  status : String
deriving Repr, DecidableEq

/-- The `expiration_date` entry of the JSON dictionary produced by
`check_domain_expiry`: a list of strings, a string, absent, or some other
JSON value (e.g. null). -/
inductive ExpiryField where
  | listVal (dates : List String)
  | strVal (date : String)
  | absent
  | otherVal
deriving Repr, DecidableEq

/-- The JSON dictionary produced by `check_domain_expiry`, restricted to
the fields `check_domains` reads. -/
structure WhoisData where
  expiration_date : ExpiryField
  registrar : Option String
  name : Option String
  registrant : Option String
  org : Option String
deriving Repr, DecidableEq

/-- External collaborators of `check_domains`, plus the clock. -/
structure CheckEnv where
  extractMain : String → String
  isValid : String → Bool
  whois : String → Except String WhoisData
  parseStd : String → Option Int
  parseFlex : String → Option Int
  fmtDate : Int → String
  now : Int

/-- The dynamic type of the Python local `domain_expiry`: a datetime, a
string (when the code forgets to parse), or None. -/
inductive PyDT where
  | dt (secs : Int)
  | pystr (s : String)
  | pynone
deriving Repr, DecidableEq

/-- Python string comparison: lexicographic on code points. -/
def charListLt : List Char → List Char → Bool
  | [], [] => false
  | [], _ :: _ => true
  | _ :: _, [] => false
  | a :: as, b :: bs =>
    if a.toNat < b.toNat then true
    else if b.toNat < a.toNat then false
    else charListLt as bs

/-- Python `min` over a list of strings (lexicographic); `None` models the
`ValueError` raised on an empty sequence. -/
def pyMinString : List String → Option String
  | [] => none
  | x :: xs => some (xs.foldl (fun m s => if charListLt s.data m.data then s else m) x)

/-- The `domain_expiry` assignment of `check_domains` (lines 367-380): a
list-valued `expiration_date` yields the un-parsed minimum string, a
string is parsed by `strptime` and then `dateutil.parser.parse`, an absent
field defaults to `datetime.now()`, any other JSON value stays unparsed
(becomes None). -/
def computeExpiry (env : CheckEnv) (w : WhoisData) : Except String PyDT :=
  match w.expiration_date with
  | .listVal dates =>
    match pyMinString dates with
    | some m => .ok (.pystr m)
    | none => .error "ValueError: min() arg is an empty sequence"
  | .strVal s =>
    match env.parseStd s with
    | some t => .ok (.dt t)
    | none =>
      match env.parseFlex s with
      | some t => .ok (.dt t)
      | none => .error "ParserError"
  | .absent => .ok (.dt env.now)
  | .otherVal => .ok .pynone

/-- The status if/elif chain of `check_domains` (lines 390-397).  `none`
means no branch assigned the local variable `status` (there is no branch
for `days = threshold`). -/
def classifyDomainStatus (days threshold : Int) : Option String :=
  if days < 0 then some "Expired"
  else if days = 0 then some "Expiring today!"
  else if days < threshold then some "Expiring soon!"
  else if days > threshold then some "Valid domain"
  else none

/-- The record appended by the `except` handler of `check_domains`
(lines 415-422). -/
def errorRecord (domain : String) : DomainRecord :=
  { domain := domain, expiry_date := "Error", days_left := 0,
    registrar := "Error", owner := "Error", status := "Error" }

/-- The record appended for an invalid domain (lines 347-354). -/
def invalidRecord (domain : String) : DomainRecord :=
  { domain := domain, expiry_date := "N/A", days_left := -1,
    registrar := "N/A", owner := "N/A", status := "Invalid domain" }

/-- One successful-lookup iteration of the `check_domains` loop body after
the WHOIS result arrived; `lastStatus` is the value the Python local
`status` still holds from a previous iteration (`none` if never assigned).
An `Except.error` models an exception reaching the `except` handler
(`TypeError` for `str`/None minus `datetime`, `UnboundLocalError` when no
status branch fired and no stale value exists). -/
def processOne (env : CheckEnv) (thr : Int) (lastStatus : Option String)
    (domain : String) (w : WhoisData) : Except String (DomainRecord × Option String) :=
  match computeExpiry env w with
  | .error e => .error e
  | .ok de =>
    match de with
    | .dt t =>
      let days : Int := Int.fdiv (t - env.now) 86400
      let registrar := w.registrar.getD "Not available"
      let owner := w.name.getD (w.registrant.getD (w.org.getD "Not available"))
      match classifyDomainStatus days thr with
      | some st =>
        .ok ({ domain := domain, expiry_date := env.fmtDate t, days_left := days,
               registrar := registrar, owner := owner, status := st }, some st)
      | none =>
        match lastStatus with
        | some st =>
          .ok ({ domain := domain, expiry_date := env.fmtDate t, days_left := days,
                 registrar := registrar, owner := owner, status := st }, some st)
        | none => .error "UnboundLocalError: status"
    | _ => .error "TypeError: unsupported operand type for subtraction"

/-- The `check_domains` loop: `seen` is the key set of the Python `rdict`
(domains already recorded are skipped), `lastStatus` the stale value of
the local `status`. -/
def checkDomainsGo (env : CheckEnv) (thr : Int) :
    List String → List String → Option String → List DomainRecord
  | [], _, _ => []
  | d :: rest, seen, lastStatus =>
    let domain := env.extractMain d
    if env.isValid domain then
      if domain ∈ seen then
        checkDomainsGo env thr rest seen lastStatus
      else
        match env.whois domain with
        | .error _ => errorRecord domain :: checkDomainsGo env thr rest (domain :: seen) lastStatus
        | .ok w =>
          match processOne env thr lastStatus domain w with
          | .ok (rec, st) => rec :: checkDomainsGo env thr rest (domain :: seen) st
          | .error _ => errorRecord domain :: checkDomainsGo env thr rest (domain :: seen) lastStatus
    else
      if domain ∈ seen then
        checkDomainsGo env thr rest seen lastStatus
      else
        invalidRecord domain :: checkDomainsGo env thr rest (domain :: seen) lastStatus

/-- `check_domains(domains_list, notification_threshold_days)`. -/
def checkDomains (env : CheckEnv) (domains_list : List String) (thr : Int) : List DomainRecord :=
  checkDomainsGo env thr domains_list [] none

/-!
Embedding of `ssl_check.py` (`SSLChecker`).  The DNS subdomain discovery
and the per-hostname TLS fetch of `get_certificate_info` are external
collaborators, given by `SslEnv`; `get_certificate_info` catches every
exception itself and always returns a dictionary, modelled by `CertDict`
(`status = none` models an absent "status" key).
-/

/-- The dictionary returned by `SSLChecker.get_certificate_info`,
restricted to the fields read downstream.  `status = none` means the
dictionary has no "status" key. -/
structure CertDict where
  hostname : String
  domain : String
  days_to_expire : Int
  expired : Bool
  error_type : Option String
  error_details : Option String
  status : Option String
  not_after : String
  cert_issuer : String
deriving Repr, DecidableEq

/-- Outcome of the TCP/TLS fetch for one hostname: success with the parsed
certificate facts, or one of the three caught exception classes
(`socket.gaierror`/`socket.timeout`, `ssl.SSLError`, anything else). -/
inductive FetchOutcome where
  | ok (days_to_expire : Int) (not_after : String) (cert_issuer : String)
  | netErr (msg : String)
  | sslErr (msg : String)
  | otherErr (msg : String)
deriving Repr, DecidableEq

/-- `SSLChecker.get_certificate_info` (lines 99-192): each except branch
returns a dictionary with `days_to_expire = -1`, a per-kind `status`
string and an `error_type` tag; no exception escapes. -/
def get_certificate_info (hostname : String) (outcome : FetchOutcome) : CertDict :=
  match outcome with
  | .ok d na ci =>
    { hostname := hostname, domain := "", days_to_expire := d, expired := decide (d < 0),
      error_type := none, error_details := none, status := none,
      not_after := na, cert_issuer := ci }
  | .netErr m =>
    { hostname := hostname, domain := "", days_to_expire := -1, expired := true,
      error_type := some "network", error_details := some m,
      status := some ("Connection error: " ++ m), not_after := "", cert_issuer := "" }
  | .sslErr m =>
    { hostname := hostname, domain := "", days_to_expire := -1, expired := true,
      error_type := some "ssl", error_details := some m,
      status := some ("SSL error: " ++ m), not_after := "", cert_issuer := "" }
  | .otherErr m =>
    { hostname := hostname, domain := "", days_to_expire := -1, expired := true,
      error_type := some "unknown", error_details := some m,
      status := some ("Certificate check failed: " ++ m), not_after := "", cert_issuer := "" }

/-- The classification if/elif chain of `check_domain_certificates`
(lines 221-228); `none` means no branch assigned a status (there is no
branch for `days_left = threshold`). -/
def classifySslStatus (days threshold : Int) : Option String :=
  if days < 0 then some "Expired"
  else if days = 0 then some "Expiring today!"
  else if days < threshold then some "Expiring soon!"
  else if days > threshold then some "Valid SSL"
  else none

/-- The per-hostname record update in the `check_domain_certificates` loop
(lines 218-232): set `domain`, classify by threshold (keeping any status
already present when no branch fires), then overwrite the status with
`"Error: " ++ details` whenever `error_type` is set. -/
def certStep (threshold : Int) (domain : String) (r1 : CertDict) : CertDict :=
  let days := r1.days_to_expire
  let st1 :=
    match classifySslStatus days threshold with
    | some s => some s
    | none => r1.status
  let st2 :=
    match r1.error_type with
    | some _ => some ("Error: " ++ r1.error_details.getD "")
    | none => st1
  { r1 with domain := domain, status := st2 }

/-- External collaborators of `SSLChecker`: the subdomain discovery result
and the per-hostname TLS fetch outcome. -/
structure SslEnv where
  subdomains : String → List String
  fetch : String → FetchOutcome

/-- `set(self.get_subdomains(domain))` with the root domain added
(lines 208-210). -/
def sslCandidates (env : SslEnv) (domain : String) : List String :=
  (env.subdomains domain ++ [domain]).eraseDups

/-- `SSLChecker.check_domain_certificates(domain, notification_threshold_days)`:
every candidate hostname contributes exactly one record because
`get_certificate_info` never raises and never returns an empty dictionary. -/
def check_domain_certificates (env : SslEnv) (domain : String) (threshold : Int) :
    List CertDict :=
  (sslCandidates env domain).map
    (fun d => certStep threshold domain (get_certificate_info d (env.fetch d)))

/-- The kind tag and message of a failing fetch outcome. -/
def fetchKind : FetchOutcome → Option (String × String)
  | .ok _ _ _ => none
  | .netErr m => some ("network", m)
  | .sslErr m => some ("ssl", m)
  | .otherErr m => some ("unknown", m)

/-!
Embedding of `notification_handler.py` (`NotificationHandler`).  The redis
store is a `RedisState`: an assoc list from key to hash fields plus a
`down` flag modelling an unreachable backing store (every redis call
raises `redis.RedisError` when `down`).  The email hash `_hash_email` is
an abstract parameter `hashEmail`.  `Except.error` models a raised
`fastapi.HTTPException`.
-/

/-- The redis store backing `NotificationHandler`: key-to-hash data and an
availability flag. -/
structure RedisState where
  down : Bool
  data : List (String × List (String × String))
deriving Repr, DecidableEq

/-- A successful `hgetall` (an absent key yields the empty hash). -/
def hGetAllD (st : RedisState) (key : String) : List (String × String) :=
  (st.data.lookup key).getD []

/-- A successful `hset key f v` on the store. -/
def storeSet (data : List (String × List (String × String))) (key f v : String) :
    List (String × List (String × String)) :=
  alSet data key (alSet ((data.lookup key).getD []) f v)

/-- `NotificationHandler.get_domains` (lines 125-155): returns `[]` when
the store is unreachable (redis error caught), the key is absent, the
subscription status is not "active", or the stored domain string is
empty; otherwise splits the comma-joined domain string. -/
def get_domains (hashEmail : String → String) (st : RedisState) (email : String) :
    List String :=
  if st.down then []
  else
    let fields := hGetAllD st (hashEmail email)
    if fields = [] then []
    else if fields.lookup "status" ≠ some "active" then []
    else
      let ds := (fields.lookup "domains").getD ""
      if ds.data = [] then [] else pySplit ds

/-- `NotificationHandler.register_domains` (lines 76-123): union with the
domains visible through `get_domains`, dedup, store the three hash fields
(email, comma-joined domains, status "active").  A redis error is caught
and re-raised as `HTTPException` (status 500) - the `.error` case. -/
def register_domains (hashEmail : String → String) (st : RedisState) (email : String)
    (domains : List String) : Except String (RedisState × List String) :=
  if st.down then .error "HTTPException(500)"
  else
    let key := hashEmail email
    let existing := get_domains hashEmail st email
    let all_domains := pyDedup (existing ++ domains)
    let d1 := storeSet st.data key "email" email
    let d2 := storeSet d1 key "domains" (pyJoinComma all_domains)
    let d3 := storeSet d2 key "status" "active"
    .ok ({ st with data := d3 }, all_domains)

/-- Result value of `unregister_domains`. -/
inductive UnregResult where
  | warning
  | removed (remaining : List String)
  | inactivated
deriving Repr, DecidableEq

/-- `NotificationHandler.unregister_domains` (lines 157-203): with a
non-empty domain list, filter those domains out of the stored
comma-joined string (note `"".split(",") = [""]` when the field is
absent); with no list (or an empty one, both falsy in Python), set the
status field to "inactive" and keep the domains field.  A redis error is
re-raised as `HTTPException` (status 500). -/
def unregister_domains (hashEmail : String → String) (st : RedisState) (email : String)
    (domains : Option (List String)) : Except String (RedisState × UnregResult) :=
  if st.down then .error "HTTPException(500)"
  else
    let key := hashEmail email
    let fields := hGetAllD st key
    if fields = [] then .ok (st, .warning)
    else
      match domains with
      | some (d :: ds) =>
        let current := pySplit ((fields.lookup "domains").getD "")
        let updated := current.filter (fun x => !((d :: ds).contains x))
        .ok ({ st with data := storeSet st.data key "domains" (pyJoinComma updated) },
             .removed updated)
      | _ =>
        .ok ({ st with data := storeSet st.data key "status" "inactive" }, .inactivated)

/-- One subscription as returned by `get_all_subscriptions`. -/
structure SubRec where
  email : String
  domains : List String
  status : String
deriving Repr, DecidableEq

/-- `NotificationHandler.get_all_subscriptions` (lines 205-233): lists the
hashes of every key and keeps the active ones; returns `[]` when the
store is unreachable (redis error caught). -/
def get_all_subscriptions (st : RedisState) : List SubRec :=
  if st.down then []
  else
    st.data.filterMap (fun entry =>
      let fields := entry.2
      if fields.lookup "status" = some "active" then
        let ds := (fields.lookup "domains").getD ""
        some { email := (fields.lookup "email").getD "unknown",
               domains := if ds.data = [] then [] else pySplit ds,
               status := "active" }
      else none)

/-!
Embedding of `notification_scheduler.py` (`NotificationScheduler`).  The
SMTP transport is an external collaborator: `SendOutcome.completed sent`
models the normal return of `_send_notification` (the inner smtp
try/except already folded into the `sent` flag), `SendOutcome.exn` an
exception caught by its outer handler.
-/

/-- One `NotificationResult` dictionary.  The counts are `none` in the
error dictionary (which carries only email, sent and error). -/
structure NotificationResult where
  email : String
  sent : Bool
  expiring_domains_count : Option Nat
  expiring_certs_count : Option Nat
  error : Option String
deriving Repr, DecidableEq

/-- Outcome of one `_send_notification` call for a given recipient. -/
inductive SendOutcome where
  | completed (sent : Bool)
  | exn (msg : String)
deriving Repr, DecidableEq

/-- External collaborators of the scheduler: the `check_domains`
environment, the `SSLChecker` environment and the SMTP transport. -/
structure SchedEnv where
  checkEnv : CheckEnv
  sslEnv : SslEnv
  send : String → SendOutcome

/-- `NotificationScheduler._send_notification` (lines 119-263): its whole
body is wrapped in try/except, so it always returns a dictionary - with
the full result-list lengths as counts on completion, or with an `error`
field when an exception was caught. -/
def send_notification (env : SchedEnv) (email : String)
    (expiring_domains : List DomainRecord) (expiring_certs : List CertDict) :
    NotificationResult :=
  match env.send email with
  | .completed sent =>
    { email := email, sent := sent,
      expiring_domains_count := some expiring_domains.length,
      expiring_certs_count := some expiring_certs.length, error := none }
  | .exn m =>
    { email := email, sent := false, expiring_domains_count := none,
      expiring_certs_count := none, error := some m }

/-- The in-place status mutation of the domain filter loop of
`check_domains_and_notify` (lines 93-97); the filtered list itself is
built but never used. -/
def markExpiringDomains (thr : Int) (rs : List DomainRecord) : List DomainRecord :=
  rs.map (fun r =>
    if r.days_left < thr ∧ r.days_left > 0 then { r with status := "Expiring Soon" } else r)

/-- The in-place status mutation of the certificate filter loop
(lines 100-104). -/
def markExpiringCerts (thr : Int) (rs : List CertDict) : List CertDict :=
  rs.map (fun r =>
    if r.days_to_expire < thr ∧ r.days_to_expire > 0 then
      { r with status := some "Expiring Soon" }
    else r)

/-- The dynamic value bound by `domain_results = check_domains(domains,
days_threshold)` at notification_scheduler.py:84: `check_domains` is
declared `async def` (domain_check.py:313) and the synchronous scheduler
never awaits the call, so the binding is a coroutine object holding the
un-run computation and its arguments, not a list of records. -/
inductive DomainResultsValue where
  | coroutine (domains : List String) (thr : Int)
deriving Repr, DecidableEq

/-- Python `for result in domain_results:` (line 94): iterating a list
would yield its elements, but iterating a coroutine object raises
`TypeError`, which nothing in `check_domains_and_notify` catches. -/
def iterateDomainResults : DomainResultsValue → Except String (List DomainRecord)
  | .coroutine _ _ => .error "TypeError: coroutine object is not iterable"

/-- The `check_domains_and_notify` loop (lines 73-117) over the
subscriptions, carrying the `notification_results` accumulator; an
uncaught exception aborts the whole method.  For a subscriber with a
non-empty domain set the body binds the un-awaited coroutine (line 84),
runs the SSL checks (lines 87-90), and then raises `TypeError` while
iterating the coroutine in the domain filter loop (line 94); the rest of
the body (status mutation, certificate filter, send, append) sits under
the unreachable `.ok` branch of that iteration. -/
def checkDomainsAndNotifyGo (env : SchedEnv) (thr : Int) :
    List SubRec → List NotificationResult → Except String (List NotificationResult)
  | [], acc => .ok acc
  | sub :: rest, acc =>
    if sub.domains = [] then checkDomainsAndNotifyGo env thr rest acc
    else
      let domain_results := DomainResultsValue.coroutine sub.domains thr
      let ssl_results :=
        sub.domains.flatMap (fun d => check_domain_certificates env.sslEnv d thr)
      match iterateDomainResults domain_results with
      | .error e => .error e
      | .ok drs =>
        checkDomainsAndNotifyGo env thr rest
          (acc ++ [send_notification env sub.email (markExpiringDomains thr drs)
            (markExpiringCerts thr ssl_results)])

/-- `NotificationScheduler.check_domains_and_notify` (lines 57-117). -/
def check_domains_and_notify (env : SchedEnv) (st : RedisState) (thr : Int) :
    Except String (List NotificationResult) :=
  checkDomainsAndNotifyGo env thr (get_all_subscriptions st) []

/-!
Embedding of `enhanced_cached.py` (the `enhanced_cached.decorator` call
path).  The wrapped coroutine is `f : Unit → α`; the cache backing store
is part of `CacheState` with a `setRaises` flag modelling an unreachable
store (`cache.set`/`cache.expire` raise, and `set_in_cache`/`_update_ttl`
catch and log).  `aiocache_wait_for_write` only chooses between awaiting
the write and scheduling it, so a single write models both branches.
-/

/-- Decorator configuration: `self.ttl`, `self.ttl_func`,
`self.skip_cache_func` and `self.track_stats`. -/
structure CacheCfg (α : Type) where
  selfTtl : Int
  ttlFunc : Option (α → Int)
  skipCacheFunc : α → Bool
  trackStats : Bool

/-- The cache backing store: entries `(key, value, ttl)` plus the
availability flag of its `set`/`expire` operations. -/
structure CacheState (α : Type) where
  entries : List (String × α × Int)
  setRaises : Bool

/-- The decorator statistics dictionary. -/
structure CacheStats where
  hits : Nat
  misses : Nat
  bypasses : Nat
deriving Repr, DecidableEq

/-- `enhanced_cached._calculate_ttl` (lines 211-215). -/
def calculate_ttl {α : Type} (cfg : CacheCfg α) (result : α) : Int :=
  match cfg.ttlFunc with
  | some f => f result
  | none => cfg.selfTtl

/-- `enhanced_cached.set_in_cache` (lines 217-228): a failing `cache.set`
is caught and logged, leaving the store unchanged. -/
def set_in_cache {α : Type} (cfg : CacheCfg α) (cs : CacheState α) (key : String)
    (value : α) (ttlArg : Option Int) : CacheState α :=
  let t := ttlArg.getD cfg.selfTtl
  if cs.setRaises then cs
  else { cs with entries := alSet cs.entries key (value, t) }

/-- `enhanced_cached._update_ttl` (lines 203-209): `cache.expire` on a hit;
failures are caught, a missing key is left alone. -/
def update_ttl {α : Type} (cs : CacheState α) (key : String) (ttl : Int) : CacheState α :=
  if cs.setRaises then cs
  else
    match cs.entries.lookup key with
    | some (v, _) => { cs with entries := alSet cs.entries key (v, ttl) }
    | none => cs

/-- Observable outcome of one call through the decorator: the returned
value, the store and statistics afterwards, and how many times the
wrapped function ran. -/
structure DecoOutcome (α : Type) where
  value : α
  state : CacheState α
  stats : CacheStats
  fCalls : Nat

/-- `enhanced_cached.decorator` (lines 118-201), one call with explicit
`bypass_cache`, `force_refresh`, `cache_read`, `cache_write` and `ttl`
arguments (`runtime_ttl` and `ttl` are merged by lines 132-135). -/
def decoratorCall {α : Type} (cfg : CacheCfg α) (f : Unit → α) (key : String)
    (bypass_cache force_refresh cache_read cache_write : Bool) (ttl : Option Int)
    (cs : CacheState α) (stats : CacheStats) : DecoOutcome α :=
  if bypass_cache || force_refresh then
    let stats1 := if cfg.trackStats then { stats with bypasses := stats.bypasses + 1 } else stats
    let result := f ()
    if !cfg.skipCacheFunc result && cache_write && (force_refresh || bypass_cache) then
      let effective_ttl :=
        match ttl with
        | some t => t
        | none => calculate_ttl cfg result
      { value := result, state := set_in_cache cfg cs key result (some effective_ttl),
        stats := stats1, fCalls := 1 }
    else
      { value := result, state := cs, stats := stats1, fCalls := 1 }
  else
    match (if cache_read then cs.entries.lookup key else none) with
    | some (v, _) =>
      let stats1 := if cfg.trackStats then { stats with hits := stats.hits + 1 } else stats
      let cs1 :=
        match ttl with
        | some t => update_ttl cs key t
        | none => cs
      { value := v, state := cs1, stats := stats1, fCalls := 0 }
    | none =>
      let stats1 := if cfg.trackStats then { stats with misses := stats.misses + 1 } else stats
      let result := f ()
      if cfg.skipCacheFunc result then
        { value := result, state := cs, stats := stats1, fCalls := 1 }
      else if cache_write then
        let effective_ttl :=
          match ttl with
          | some t => t
          | none => calculate_ttl cfg result
        { value := result, state := set_in_cache cfg cs key result (some effective_ttl),
          stats := stats1, fCalls := 1 }
      else
        { value := result, state := cs, stats := stats1, fCalls := 1 }

/-- A well-formed domain token for the subscription store round trip:
non-empty and comma-free (the store serializes domain sets as
comma-joined strings). -/
def goodDomain (s : String) : Prop := s.data ≠ [] ∧ ',' ∉ s.data

instance (s : String) : Decidable (goodDomain s) := by
  unfold goodDomain
  exact inferInstance

/-!
Helper lemmas about the subscription store.
-/

theorem append_ne_nil_of_right {l r : List String} (h : r ≠ []) : l ++ r ≠ [] := by
  intro hc
  exact h (List.append_eq_nil.mp hc).2


/-- The store data written by a successful `register_domains`: the three
`hset` calls on the email-hash key in source order. -/
def registerData (data : List (String × List (String × String)))
    (key emailv J : String) : List (String × List (String × String)) :=
  storeSet (storeSet (storeSet data key "email" emailv) key "domains" J) key "status" "active"

theorem registerData_fields (data : List (String × List (String × String)))
    (key emailv J : String) :
    ∃ fs, (registerData data key emailv J).lookup key = some fs ∧ fs ≠ [] ∧
      fs.lookup "status" = some "active" ∧ fs.lookup "domains" = some J := by
  simp only [registerData, storeSet]
  refine ⟨_, alSet_lookup_self _ _ _, alSet_ne_nil _ _ _, alSet_lookup_self _ _ _, ?_⟩
  rw [alSet_lookup_ne _ _ _ _ (by decide), alSet_lookup_self, Option.getD_some,
    alSet_lookup_self]

/-- The full store state after a successful `register_domains`. -/
def registeredState (hashEmail : String → String) (st : RedisState) (email : String)
    (l : List String) : RedisState :=
  { st with
    data := registerData st.data (hashEmail email) email
      (pyJoinComma (pyDedup (get_domains hashEmail st email ++ l))) }

theorem get_domains_of_registerData (hashEmail : String → String) (email : String)
    (data : List (String × List (String × String))) (all : List String)
    (hall_ne : all ≠ []) (hall_mem : ∀ x ∈ all, goodDomain x) :
    get_domains hashEmail
      ⟨false, registerData data (hashEmail email) email (pyJoinComma all)⟩ email = all := by
  obtain ⟨fs, hfs, hfs_ne, hstat, hdom⟩ :=
    registerData_fields data (hashEmail email) email (pyJoinComma all)
  have hJne : (pyJoinComma all).data ≠ [] :=
    pyJoinComma_ne_empty all hall_ne (fun x hx => (hall_mem x hx).1)
  have hsplit : pySplit (pyJoinComma all) = all :=
    pySplit_pyJoinComma all hall_ne (fun x hx => (hall_mem x hx).2)
  simp only [get_domains, hGetAllD, Bool.false_eq_true, if_false, hfs, Option.getD_some]
  rw [if_neg hfs_ne, if_neg (by rw [hstat]; intro hcon; exact hcon rfl), hdom,
    Option.getD_some, if_neg hJne, hsplit]

/-- After a successful `register_domains`, `get_domains` returns exactly the
deduplicated union of the previously visible domains and the new ones,
provided every domain involved is a well-formed (non-empty, comma-free)
token. -/
theorem register_spec (hashEmail : String → String) (st : RedisState) (email : String)
    (l : List String) (hup : st.down = false) (hne : l ≠ [])
    (hl : ∀ x ∈ l, goodDomain x)
    (hE : ∀ x ∈ get_domains hashEmail st email, goodDomain x) :
    register_domains hashEmail st email l
      = .ok (registeredState hashEmail st email l,
             pyDedup (get_domains hashEmail st email ++ l)) ∧
    (registeredState hashEmail st email l).down = false ∧
    get_domains hashEmail (registeredState hashEmail st email l) email
      = pyDedup (get_domains hashEmail st email ++ l) ∧
    (hGetAllD (registeredState hashEmail st email l) (hashEmail email)).lookup "status"
      = some "active" := by
  have hall_mem : ∀ x ∈ pyDedup (get_domains hashEmail st email ++ l), goodDomain x := by
    intro x hx
    rcases List.mem_append.mp ((mem_pyDedup x _).mp hx) with hx' | hx'
    · exact hE x hx'
    · exact hl x hx'
  have hall_ne : pyDedup (get_domains hashEmail st email ++ l) ≠ [] :=
    pyDedup_ne_nil _ (append_ne_nil_of_right hne)
  have hstate : registeredState hashEmail st email l
      = RedisState.mk false (registerData st.data (hashEmail email) email
          (pyJoinComma (pyDedup (get_domains hashEmail st email ++ l)))) := by
    unfold registeredState
    rw [← hup]
  obtain ⟨fs, hfs, hfs_ne, hstat, hdom⟩ :=
    registerData_fields st.data (hashEmail email) email
      (pyJoinComma (pyDedup (get_domains hashEmail st email ++ l)))
  refine ⟨?_, hup, ?_, ?_⟩
  · simp only [register_domains, hup, Bool.false_eq_true, if_false, registeredState,
      registerData, storeSet]
  · rw [hstate]
    exact get_domains_of_registerData hashEmail email st.data _ hall_ne hall_mem
  · rw [hstate]
    simp only [hGetAllD, hfs, Option.getD_some]
    exact hstat

/-!
Claim C7 - register union round trip.
-/

/-- C7: for every subscriber email, registering domain set [a, b] and then
[b, c] yields `get_domains` equal (as a set) to the union a, b, c:
`register_domains` stores the deduplicated union of the existing and new
domains with status "active", and repeating the same registration leaves
the visible set unchanged (idempotent union).  Domains are well-formed
tokens (non-empty, comma-free) and the subscriber starts with no visible
domains. -/
theorem register_union_idempotent (hashEmail : String → String) (st : RedisState)
    (email a b c : String) (hup : st.down = false)
    (hfresh : get_domains hashEmail st email = [])
    (ha : goodDomain a) (hb : goodDomain b) (hc : goodDomain c) :
    ∃ (st1 st2 st3 : RedisState) (all1 all2 all3 : List String),
      register_domains hashEmail st email [a, b] = .ok (st1, all1) ∧
      register_domains hashEmail st1 email [b, c] = .ok (st2, all2) ∧
      (∀ x, x ∈ get_domains hashEmail st2 email ↔ (x = a ∨ x = b ∨ x = c)) ∧
      register_domains hashEmail st2 email [b, c] = .ok (st3, all3) ∧
      (∀ x, x ∈ get_domains hashEmail st3 email ↔ x ∈ get_domains hashEmail st2 email) := by
  have hab : ∀ x ∈ [a, b], goodDomain x := by
    intro x hx
    simp only [List.mem_cons, List.not_mem_nil, or_false] at hx
    rcases hx with rfl | rfl
    · exact ha
    · exact hb
  have hbc : ∀ x ∈ [b, c], goodDomain x := by
    intro x hx
    simp only [List.mem_cons, List.not_mem_nil, or_false] at hx
    rcases hx with rfl | rfl
    · exact hb
    · exact hc
  have hE0 : ∀ x ∈ get_domains hashEmail st email, goodDomain x := by
    intro x hx
    rw [hfresh] at hx
    exact absurd hx (List.not_mem_nil x)
  obtain ⟨hreg1, hdown1, hgd1, -⟩ :=
    register_spec hashEmail st email [a, b] hup (by simp) hab hE0
  have mem1 : ∀ x,
      x ∈ get_domains hashEmail (registeredState hashEmail st email [a, b]) email
        ↔ (x = a ∨ x = b) := by
    intro x
    rw [hgd1, mem_pyDedup, hfresh]
    simp
  have hE1 : ∀ x ∈ get_domains hashEmail (registeredState hashEmail st email [a, b]) email,
      goodDomain x := by
    intro x hx
    rcases (mem1 x).mp hx with rfl | rfl
    · exact ha
    · exact hb
  obtain ⟨hreg2, hdown2, hgd2, -⟩ :=
    register_spec hashEmail (registeredState hashEmail st email [a, b]) email [b, c]
      hdown1 (by simp) hbc hE1
  have mem2 : ∀ x,
      x ∈ get_domains hashEmail
          (registeredState hashEmail (registeredState hashEmail st email [a, b]) email [b, c])
          email
        ↔ (x = a ∨ x = b ∨ x = c) := by
    intro x
    rw [hgd2, mem_pyDedup, List.mem_append, mem1 x]
    simp only [List.mem_cons, List.not_mem_nil, or_false]
    tauto
  have hE2 : ∀ x ∈ get_domains hashEmail
      (registeredState hashEmail (registeredState hashEmail st email [a, b]) email [b, c])
      email, goodDomain x := by
    intro x hx
    rcases (mem2 x).mp hx with rfl | rfl | rfl
    · exact ha
    · exact hb
    · exact hc
  obtain ⟨hreg3, hdown3, hgd3, -⟩ :=
    register_spec hashEmail
      (registeredState hashEmail (registeredState hashEmail st email [a, b]) email [b, c])
      email [b, c] hdown2 (by simp) hbc hE2
  refine ⟨_, _, _, _, _, _, hreg1, hreg2, mem2, hreg3, ?_⟩
  intro x
  rw [hgd3, mem_pyDedup, List.mem_append]
  constructor
  · rintro (hx | hx)
    · exact hx
    · simp only [List.mem_cons, List.not_mem_nil, or_false] at hx
      rcases hx with rfl | rfl
      · exact (mem2 _).mpr (Or.inr (Or.inl rfl))
      · exact (mem2 _).mpr (Or.inr (Or.inr rfl))
  · exact Or.inl

/-- Witness for C7 at a concrete fresh store and concrete domains. -/
theorem register_union_idempotent_witness :
    ∃ (st1 st2 st3 : RedisState) (all1 all2 all3 : List String),
      register_domains (fun e => e) ⟨false, []⟩ "u@x" ["a.com", "b.com"] = .ok (st1, all1) ∧
      register_domains (fun e => e) st1 "u@x" ["b.com", "c.com"] = .ok (st2, all2) ∧
      (∀ x, x ∈ get_domains (fun e => e) st2 "u@x"
        ↔ (x = "a.com" ∨ x = "b.com" ∨ x = "c.com")) ∧
      register_domains (fun e => e) st2 "u@x" ["b.com", "c.com"] = .ok (st3, all3) ∧
      (∀ x, x ∈ get_domains (fun e => e) st3 "u@x" ↔ x ∈ get_domains (fun e => e) st2 "u@x") :=
  register_union_idempotent (fun e => e) ⟨false, []⟩ "u@x" "a.com" "b.com" "c.com"
    rfl (by decide) (by decide) (by decide) (by decide)

/-!
Claim C8 - full unregister is a soft delete.
-/

/-- C8: for a subscriber with an existing active subscription, calling
`unregister_domains` with no domain list only sets the status field to
"inactive": the stored domains field (and every other field) is unchanged
in the backing store, every other key is untouched, and `get_domains`
subsequently returns the empty list - a soft delete, no hard deletion. -/
theorem unregister_soft_delete (hashEmail : String → String) (st : RedisState)
    (email : String) (hup : st.down = false)
    (hex : hGetAllD st (hashEmail email) ≠ [])
    (hact : (hGetAllD st (hashEmail email)).lookup "status" = some "active") :
    ∃ st' : RedisState,
      unregister_domains hashEmail st email none = .ok (st', .inactivated) ∧
      (hGetAllD st' (hashEmail email)).lookup "domains"
        = (hGetAllD st (hashEmail email)).lookup "domains" ∧
      (∀ f, f ≠ "status" →
        (hGetAllD st' (hashEmail email)).lookup f
          = (hGetAllD st (hashEmail email)).lookup f) ∧
      (hGetAllD st' (hashEmail email)).lookup "status" = some "inactive" ∧
      get_domains hashEmail st' email = [] ∧
      (∀ k, k ≠ hashEmail email → st'.data.lookup k = st.data.lookup k) := by
  have hl1 : (storeSet st.data (hashEmail email) "status" "inactive").lookup (hashEmail email)
      = some (alSet (hGetAllD st (hashEmail email)) "status" "inactive") :=
    alSet_lookup_self _ _ _
  refine ⟨{ st with data := storeSet st.data (hashEmail email) "status" "inactive" },
    ?_, ?_, ?_, ?_, ?_, ?_⟩
  · simp only [unregister_domains, hup, Bool.false_eq_true, if_false]
    rw [if_neg hex]
  · simp only [hGetAllD, hl1, Option.getD_some]
    exact alSet_lookup_ne _ _ _ _ (by decide)
  · intro f hf
    simp only [hGetAllD, hl1, Option.getD_some]
    exact alSet_lookup_ne _ _ _ _ hf
  · simp only [hGetAllD, hl1, Option.getD_some]
    exact alSet_lookup_self _ _ _
  · simp only [get_domains, hup, Bool.false_eq_true, if_false, hGetAllD, hl1,
      Option.getD_some]
    rw [if_neg (alSet_ne_nil _ _ _)]
    rw [if_pos (by rw [alSet_lookup_self]; decide)]
  · intro k hk
    exact alSet_lookup_ne _ _ _ _ hk

/-- Witness for C8 at a concrete store holding one active subscription. -/
theorem unregister_soft_delete_witness :
    ∃ st' : RedisState,
      unregister_domains (fun e => e)
          ⟨false, [("u@x", [("email", "u@x"), ("domains", "a.com,c.com"),
            ("status", "active")])]⟩ "u@x" none = .ok (st', .inactivated) ∧
      (hGetAllD st' "u@x").lookup "domains"
        = (hGetAllD ⟨false, [("u@x", [("email", "u@x"), ("domains", "a.com,c.com"),
            ("status", "active")])]⟩ "u@x").lookup "domains" ∧
      (∀ f, f ≠ "status" →
        (hGetAllD st' "u@x").lookup f
          = (hGetAllD ⟨false, [("u@x", [("email", "u@x"), ("domains", "a.com,c.com"),
              ("status", "active")])]⟩ "u@x").lookup f) ∧
      (hGetAllD st' "u@x").lookup "status" = some "inactive" ∧
      get_domains (fun e => e) st' "u@x" = [] ∧
      (∀ k, k ≠ "u@x" → st'.data.lookup k
        = (RedisState.mk false [("u@x", [("email", "u@x"), ("domains", "a.com,c.com"),
            ("status", "active")])]).data.lookup k) :=
  unregister_soft_delete (fun e => e)
    ⟨false, [("u@x", [("email", "u@x"), ("domains", "a.com,c.com"), ("status", "active")])]⟩
    "u@x" rfl (by decide) (by decide)

/-!
Claim C10 - re-registering after a full unregister loses the retained
domains.
-/

/-- C10: re-registering any domains for a subscriber whose subscription was
previously marked inactive by a full unregister reactivates the
subscription, but the stored domain set becomes exactly the newly supplied
domains: because `get_domains` returns the empty list for an inactive
subscription, the union computed by `register_domains` starts from nothing
and the domains retained by the soft delete are overwritten. -/
theorem reregister_after_soft_delete_overwrites (hashEmail : String → String)
    (st : RedisState) (email : String) (l : List String) (hup : st.down = false)
    (hinact : (hGetAllD st (hashEmail email)).lookup "status" = some "inactive")
    (hne : l ≠ []) (hl : ∀ x ∈ l, goodDomain x) :
    ∃ (st' : RedisState) (all : List String),
      register_domains hashEmail st email l = .ok (st', all) ∧
      (∀ x, x ∈ all ↔ x ∈ l) ∧
      (∀ x, x ∈ get_domains hashEmail st' email ↔ x ∈ l) ∧
      (∀ x, x ∉ l → x ∉ get_domains hashEmail st' email) ∧
      (hGetAllD st' (hashEmail email)).lookup "status" = some "active" := by
  have hfresh : get_domains hashEmail st email = [] := by
    simp only [get_domains, hup, Bool.false_eq_true, if_false]
    by_cases hfe : hGetAllD st (hashEmail email) = []
    · rw [if_pos hfe]
    · rw [if_neg hfe, if_pos (by rw [hinact]; decide)]
  have hE0 : ∀ x ∈ get_domains hashEmail st email, goodDomain x := by
    intro x hx
    rw [hfresh] at hx
    exact absurd hx (List.not_mem_nil x)
  obtain ⟨hreg, hdown, hgd, hstat⟩ := register_spec hashEmail st email l hup hne hl hE0
  have hmem : ∀ x, x ∈ pyDedup (get_domains hashEmail st email ++ l) ↔ x ∈ l := by
    intro x
    rw [mem_pyDedup, List.mem_append, hfresh]
    simp
  refine ⟨_, _, hreg, hmem, ?_, ?_, hstat⟩
  · intro x
    rw [hgd]
    exact hmem x
  · intro x hx hmem'
    rw [hgd] at hmem'
    exact hx ((hmem x).mp hmem')

/-- Witness for C10 at a concrete store holding one inactive subscription
with retained domains. -/
theorem reregister_after_soft_delete_overwrites_witness :
    ∃ (st' : RedisState) (all : List String),
      register_domains (fun e => e)
          ⟨false, [("u@x", [("email", "u@x"), ("domains", "a.com,c.com"),
            ("status", "inactive")])]⟩ "u@x" ["d.com"] = .ok (st', all) ∧
      (∀ x, x ∈ all ↔ x ∈ ["d.com"]) ∧
      (∀ x, x ∈ get_domains (fun e => e) st' "u@x" ↔ x ∈ ["d.com"]) ∧
      (∀ x, x ∉ ["d.com"] → x ∉ get_domains (fun e => e) st' "u@x") ∧
      (hGetAllD st' "u@x").lookup "status" = some "active" :=
  reregister_after_soft_delete_overwrites (fun e => e)
    ⟨false, [("u@x", [("email", "u@x"), ("domains", "a.com,c.com"),
      ("status", "inactive")])]⟩ "u@x" ["d.com"] rfl (by decide) (by decide) (by decide)

/-!
Claim C3 - behaviour when the backing store is unreachable.
-/

/-- C3 counterexample: the claim says every `NotificationHandler` operation
returns a benign value and never propagates an exception when the backing
store is unreachable; but `register_domains` on an unreachable store
re-raises the redis error as an `HTTPException`, modelled by the
`Except.error` result. -/
theorem register_domains_raises_on_store_error :
    register_domains (fun e => e) ⟨true, []⟩ "u@x" ["a.com"]
      = .error "HTTPException(500)" ∧
    unregister_domains (fun e => e) ⟨true, []⟩ "u@x" none
      = .error "HTTPException(500)" := by
  constructor
  · rfl
  · rfl

/-- C3 amended: when the backing store is unreachable, the read operations
`get_domains` and `get_all_subscriptions` degrade gracefully to the empty
list without propagating, while the write operations `register_domains`
and `unregister_domains` raise `HTTPException` (status 500), as their own
docstrings state. -/
theorem store_unreachable_degradation (hashEmail : String → String) (st : RedisState)
    (email : String) (l : List String) (hdown : st.down = true) :
    get_domains hashEmail st email = [] ∧
    get_all_subscriptions st = [] ∧
    register_domains hashEmail st email l = .error "HTTPException(500)" ∧
    unregister_domains hashEmail st email none = .error "HTTPException(500)" ∧
    unregister_domains hashEmail st email (some l) = .error "HTTPException(500)" := by
  refine ⟨?_, ?_, ?_, ?_, ?_⟩ <;>
    simp only [get_domains, get_all_subscriptions, register_domains, unregister_domains,
      hdown, if_true]

/-- Witness for C3 (amended) at a concrete unreachable store. -/
theorem store_unreachable_degradation_witness :
    get_domains (fun e => e) ⟨true, []⟩ "u@x" = [] ∧
    get_all_subscriptions ⟨true, []⟩ = [] ∧
    register_domains (fun e => e) ⟨true, []⟩ "u@x" ["a.com"] = .error "HTTPException(500)" ∧
    unregister_domains (fun e => e) ⟨true, []⟩ "u@x" none = .error "HTTPException(500)" ∧
    unregister_domains (fun e => e) ⟨true, []⟩ "u@x" (some ["a.com"])
      = .error "HTTPException(500)" :=
  store_unreachable_degradation (fun e => e) ⟨true, []⟩ "u@x" ["a.com"] rfl

/-!
Concrete check environments for evaluating `check_domains`.
-/

/-- A WHOIS JSON dictionary with the given expiration field and no other
populated fields. -/
def mkWhois (e : ExpiryField) : WhoisData :=
  { expiration_date := e, registrar := none, name := none, registrant := none, org := none }

/-- Environment whose WHOIS expiry parses to exactly 30 days after the
clock (the notification threshold boundary). -/
def envBoundary : CheckEnv :=
  { extractMain := fun d => d
    isValid := fun _ => true
    whois := fun _ => .ok (mkWhois (.strVal "2030-01-01 00:00:00"))
    parseStd := fun _ => some 2592000
    parseFlex := fun _ => none
    fmtDate := fun _ => "2030-01-01"
    now := 0 }

/-- Environment where the first domain is 40 days out and every other
domain exactly 30 days out. -/
def envStale : CheckEnv :=
  { extractMain := fun d => d
    isValid := fun _ => true
    whois := fun d => .ok (mkWhois (.strVal d))
    parseStd := fun s => if s = "ok.com" then some 3456000 else some 2592000
    parseFlex := fun _ => none
    fmtDate := fun _ => "d"
    now := 0 }

/-- Environment whose WHOIS lookup always raises. -/
def envWhoisFail : CheckEnv :=
  { extractMain := fun d => d
    isValid := fun _ => true
    whois := fun _ => .error "ResolutionError"
    parseStd := fun _ => none
    parseFlex := fun _ => none
    fmtDate := fun _ => ""
    now := 0 }

/-- Environment whose WHOIS lookup returns a list-valued expiration date. -/
def envListExpiry : CheckEnv :=
  { extractMain := fun d => d
    isValid := fun _ => true
    whois := fun _ => .ok (mkWhois (.listVal ["2030-01-01 00:00:00", "2031-01-01 00:00:00"]))
    parseStd := fun _ => none
    parseFlex := fun _ => none
    fmtDate := fun _ => ""
    now := 0 }

/-- SSL environment with no discovered subdomains and a certificate exactly
30 days from expiry. -/
def sslEnvBoundary : SslEnv :=
  { subdomains := fun _ => []
    fetch := fun _ => .ok 30 "Jan 1 00:00:00 2030 GMT" "IssuerOrg" }

/-!
Claim C1 - classification at the threshold boundary.
-/

/-- C1: the claim says a record whose `days_left` equals the notification
threshold gets the Valid status and that classification is total; in the
code neither if/elif chain has a branch for `days_left = threshold`
(Valid requires strictly greater).  At the boundary `check_domains` hits
an unbound local `status` - the first time this raises and the `except`
handler emits the generic Error record, afterwards the stale status of
the previous domain is silently reused - and `check_domain_certificates`
appends the record with no status key at all. -/
theorem threshold_boundary_unassigned_eval :
    classifyDomainStatus 30 30 = none ∧
    classifySslStatus 30 30 = none ∧
    checkDomains envBoundary ["a.com"] 30 = [errorRecord "a.com"] ∧
    (check_domain_certificates sslEnvBoundary "a.com" 30).map (fun r => r.status)
      = [none] ∧
    (checkDomains envStale ["ok.com", "edge.com"] 30).map (fun r => r.status)
      = ["Valid domain", "Valid domain"] :=
  ⟨rfl, rfl, rfl, rfl, rfl⟩

/-!
Claim C5 - WHOIS failures become Error records and the loop continues.
-/

/-- C5 counterexample: the claim says the Error record carries
`days_left = -1`; the `except` handler of `check_domains` writes
`days_left = 0` (the -1 value is used by the invalid-domain record). -/
theorem whois_error_days_left_zero :
    (checkDomains envWhoisFail ["a.com", "b.com"] 30).map (fun r => r.days_left)
      = [0, 0] ∧
    (checkDomains envWhoisFail ["a.com", "b.com"] 30).map (fun r => r.status)
      = ["Error", "Error"] ∧
    ¬ (checkDomains envWhoisFail ["a.com"] 30).map (fun r => r.days_left) = [-1] := by
  refine ⟨rfl, rfl, ?_⟩
  decide

/-- C5 amended: for every domain whose WHOIS resolution raises,
`check_domain_expiry` re-raises (the `Except.error` of `CheckEnv.whois`)
and `check_domains` converts the failure into a record with status
"Error" and `days_left = 0`, then continues with the remaining domains. -/
theorem whois_failure_continues (env : CheckEnv) (thr : Int) (d : String)
    (rest : List String) (msg : String)
    (hval : env.isValid (env.extractMain d) = true)
    (hwho : env.whois (env.extractMain d) = .error msg) :
    checkDomains env (d :: rest) thr
      = errorRecord (env.extractMain d)
        :: checkDomainsGo env thr rest [env.extractMain d] none ∧
    (errorRecord (env.extractMain d)).status = "Error" ∧
    (errorRecord (env.extractMain d)).days_left = 0 := by
  refine ⟨?_, rfl, rfl⟩
  simp only [checkDomains, checkDomainsGo, hval, if_true, List.not_mem_nil, ite_false,
    hwho]

/-- Witness for C5 (amended) at the concrete failing environment. -/
theorem whois_failure_continues_witness :
    checkDomains envWhoisFail ["a.com", "b.com"] 30
      = errorRecord "a.com" :: checkDomainsGo envWhoisFail 30 ["b.com"] ["a.com"] none ∧
    (errorRecord "a.com").status = "Error" ∧
    (errorRecord "a.com").days_left = 0 :=
  whois_failure_continues envWhoisFail 30 "a.com" ["b.com"] "ResolutionError" rfl rfl

/-!
Claim C9 - list-valued expiration dates.
-/

/-- C9: the claim (and the spec) say the minimum of a list-valued
`expiration_date` is used as the authoritative expiry for `days_left` and
`expiry_date`; the code does compute `min(...)` (the lexicographically
least of the JSON date strings, here the earlier date) but never parses
it, so subtracting `datetime.now()` from the string raises a `TypeError`
and the domain yields the generic Error record (`days_left = 0`,
`expiry_date = "Error"`) instead. -/
theorem list_expiration_type_error_eval :
    pyMinString ["2030-01-01 00:00:00", "2031-01-01 00:00:00"]
      = some "2030-01-01 00:00:00" ∧
    computeExpiry envListExpiry
        (mkWhois (.listVal ["2030-01-01 00:00:00", "2031-01-01 00:00:00"]))
      = .ok (.pystr "2030-01-01 00:00:00") ∧
    checkDomains envListExpiry ["a.com"] 30 = [errorRecord "a.com"] :=
  ⟨rfl, rfl, rfl⟩

/-!
Claim C4 - per-hostname certificate failures.
-/

/-- SSL environment where the discovered subdomain fails with a network
error and the root domain fails with a TLS error, both with the same
message. -/
def sslEnvTwoFailures : SslEnv :=
  { subdomains := fun _ => ["b.a.com"]
    fetch := fun h => if h = "b.a.com" then .netErr "boom" else .sslErr "boom" }

/-- C4 counterexample: the claim says each failed record carries the
distinct error status of its failure kind; in the batch loop the per-kind
statuses written by `get_certificate_info` are overwritten with the
uniform `"Error: " ++ details` string, so a network failure and a TLS
failure with the same message end up with identical statuses - only the
`error_type` field still distinguishes them. -/
theorem cert_error_status_not_distinct :
    (check_domain_certificates sslEnvTwoFailures "a.com" 30).map (fun r => r.status)
      = [some "Error: boom", some "Error: boom"] ∧
    (check_domain_certificates sslEnvTwoFailures "a.com" 30).map (fun r => r.error_type)
      = [some "network", some "ssl"] :=
  ⟨rfl, rfl⟩

/-- C4 amended: a failure of one hostname never aborts the batch - the
returned list has exactly one record per candidate hostname - and each
failed hostname record carries `days_to_expire = -1`, the kind tag
("network"/"ssl"/"unknown") in `error_type`, and the uniform status
`"Error: " ++ details` (the per-kind statuses of `get_certificate_info`
are overwritten by the batch loop). -/
theorem cert_batch_isolation (env : SslEnv) (domain : String) (thr : Int) :
    (check_domain_certificates env domain thr).length
      = (sslCandidates env domain).length ∧
    ∀ h, h ∈ sslCandidates env domain → ∀ k m, fetchKind (env.fetch h) = some (k, m) →
      ∃ r, r ∈ check_domain_certificates env domain thr ∧ r.hostname = h ∧
        r.days_to_expire = -1 ∧ r.error_type = some k ∧
        r.status = some ("Error: " ++ m) := by
  constructor
  · simp [check_domain_certificates]
  · intro h hh k m hkind
    refine ⟨certStep thr domain (get_certificate_info h (env.fetch h)),
      List.mem_map_of_mem _ hh, ?_⟩
    cases hf : env.fetch h with
    | ok d na ci =>
      rw [hf] at hkind
      exact absurd hkind (by simp [fetchKind])
    | netErr mm =>
      rw [hf] at hkind
      simp only [fetchKind, Option.some.injEq, Prod.mk.injEq] at hkind
      obtain ⟨rfl, rfl⟩ := hkind
      refine ⟨rfl, rfl, rfl, ?_⟩
      simp [certStep, get_certificate_info, classifySslStatus]
    | sslErr mm =>
      rw [hf] at hkind
      simp only [fetchKind, Option.some.injEq, Prod.mk.injEq] at hkind
      obtain ⟨rfl, rfl⟩ := hkind
      refine ⟨rfl, rfl, rfl, ?_⟩
      simp [certStep, get_certificate_info, classifySslStatus]
    | otherErr mm =>
      rw [hf] at hkind
      simp only [fetchKind, Option.some.injEq, Prod.mk.injEq] at hkind
      obtain ⟨rfl, rfl⟩ := hkind
      refine ⟨rfl, rfl, rfl, ?_⟩
      simp [certStep, get_certificate_info, classifySslStatus]

/-- Witness for C4 (amended) at the concrete two-failure environment. -/
theorem cert_batch_isolation_witness :
    (check_domain_certificates sslEnvTwoFailures "a.com" 30).length
      = (sslCandidates sslEnvTwoFailures "a.com").length ∧
    ∃ r, r ∈ check_domain_certificates sslEnvTwoFailures "a.com" 30 ∧
      r.hostname = "b.a.com" ∧ r.days_to_expire = -1 ∧
      r.error_type = some "network" ∧ r.status = some ("Error: " ++ "boom") := by
  have h := cert_batch_isolation sslEnvTwoFailures "a.com" 30
  exact ⟨h.1, h.2 "b.a.com" (by decide) "network" "boom" (by decide)⟩

/-!
Claim C2 - the notification run cannot isolate per-subscriber failures.
-/

theorem checkDomainsAndNotifyGo_spec (env : SchedEnv) (thr : Int) (subs : List SubRec)
    (acc : List NotificationResult) :
    ((∃ sub ∈ subs, sub.domains ≠ []) →
      checkDomainsAndNotifyGo env thr subs acc
        = .error "TypeError: coroutine object is not iterable") ∧
    ((∀ sub ∈ subs, sub.domains = []) →
      checkDomainsAndNotifyGo env thr subs acc = .ok acc) := by
  induction subs generalizing acc with
  | nil =>
    exact ⟨fun ⟨sub, hmem, _⟩ => absurd hmem (List.not_mem_nil sub), fun _ => rfl⟩
  | cons sub rest ih =>
    by_cases hs : sub.domains = []
    · constructor
      · rintro ⟨s, hmem, hne⟩
        simp only [checkDomainsAndNotifyGo]
        rw [if_pos hs]
        rcases List.mem_cons.mp hmem with rfl | hmem'
        · exact absurd hs hne
        · exact (ih acc).1 ⟨s, hmem', hne⟩
      · intro hall
        simp only [checkDomainsAndNotifyGo]
        rw [if_pos hs]
        exact (ih acc).2 (fun s hm => hall s (List.mem_cons_of_mem _ hm))
    · constructor
      · intro _
        simp only [checkDomainsAndNotifyGo]
        rw [if_neg hs]
        rfl
      · intro hall
        exact absurd (hall sub (List.mem_cons_self _ _)) hs

/-- C2: the claim (spec 4.6, and the docstring of
`check_domains_and_notify`, which promises a list of notification
results) requires exactly one `NotificationResult` per non-empty-domain
subscriber with per-subscriber failure isolation.  The code cannot
deliver this: `check_domains` is a coroutine function and the
synchronous scheduler calls it without await (line 84), so iterating the
bound coroutine (line 94) raises an uncaught `TypeError` on the first
subscriber with a non-empty domain set - the whole run aborts and
nothing is recorded.  Only a run in which every subscriber has an empty
domain set returns, with the empty result list. -/
theorem notify_run_aborts_on_first_nonempty_subscriber (env : SchedEnv) (st : RedisState)
    (thr : Int) :
    ((∃ sub ∈ get_all_subscriptions st, sub.domains ≠ []) →
      check_domains_and_notify env st thr
        = .error "TypeError: coroutine object is not iterable") ∧
    ((∀ sub ∈ get_all_subscriptions st, sub.domains = []) →
      check_domains_and_notify env st thr = .ok []) :=
  checkDomainsAndNotifyGo_spec env thr (get_all_subscriptions st) []

/-- Concrete store for the C2 witness: three active subscriptions, the
middle one with an empty domain set. -/
def redisC : RedisState :=
  ⟨false, [("h1", [("email", "u1@x"), ("domains", "a.com"), ("status", "active")]),
           ("h2", [("email", "u2@x"), ("domains", ""), ("status", "active")]),
           ("h3", [("email", "u3@x"), ("domains", "b.com"), ("status", "active")])]⟩

/-- Concrete scheduler environment for the C2 witness. -/
def schedEnvC : SchedEnv :=
  { checkEnv := envWhoisFail, sslEnv := sslEnvTwoFailures, send := fun _ => .exn "smtp down" }

/-- Witness for C2: the concrete store with non-empty-domain subscribers
aborts with the TypeError; a store whose only subscriber has an empty
domain set returns the empty run. -/
theorem notify_run_aborts_witness :
    check_domains_and_notify schedEnvC redisC 30
      = .error "TypeError: coroutine object is not iterable" ∧
    check_domains_and_notify schedEnvC
      ⟨false, [("h2", [("email", "u2@x"), ("domains", ""), ("status", "active")])]⟩ 30
      = .ok [] := by
  have h1 := notify_run_aborts_on_first_nonempty_subscriber schedEnvC redisC 30
  have h2 := notify_run_aborts_on_first_nonempty_subscriber schedEnvC
    ⟨false, [("h2", [("email", "u2@x"), ("domains", ""), ("status", "active")])]⟩ 30
  refine ⟨h1.1 ⟨⟨"u1@x", ["a.com"], "active"⟩, ?_, ?_⟩, h2.2 ?_⟩
  · decide
  · decide
  · decide

/-!
Claim C6 - force_refresh semantics of the cached resolver.
-/

/-- The configuration used by the cached WHOIS resolver
(`check_domain_expiry`): 24h default TTL, no dynamic TTL function, the
default constant-false `skip_cache_func`, statistics on. -/
def cfgInt : CacheCfg Int :=
  { selfTtl := 86400, ttlFunc := none, skipCacheFunc := fun _ => false, trackStats := true }

/-- C6 counterexample: the claim says every `force_refresh=true` call
always writes the fresh result back; but `cache_write` is a per-call
argument of the decorator and a call with `cache_write=false` computes
the value without writing anything. -/
theorem force_refresh_write_skipped_when_disabled :
    (decoratorCall cfgInt (fun _ => (42 : Int)) "k" false true true false none
      ⟨[], false⟩ ⟨0, 0, 0⟩).state.entries = [] ∧
    (decoratorCall cfgInt (fun _ => (42 : Int)) "k" false true true false none
      ⟨[], false⟩ ⟨0, 0, 0⟩).value = 42 ∧
    (decoratorCall cfgInt (fun _ => (42 : Int)) "k" false true true false none
      ⟨[], false⟩ ⟨0, 0, 0⟩).fCalls = 1 :=
  ⟨rfl, rfl, rfl⟩

/-- C6 amended: for every call with `force_refresh=true` (and the default
`cache_write=true`, with the resolver's constant-false skip function) the
cache is never read - the returned value is the fresh result whatever the
cache contains, and hit/miss statistics are untouched - the wrapped
function runs exactly once, and the result is written under the key with
the effective TTL (the per-call ttl override, else `_calculate_ttl`);
when the backing store's `set` raises, `set_in_cache` swallows the error,
the store is unchanged and the fresh value is returned regardless. -/
theorem force_refresh_spec {α : Type} (cfg : CacheCfg α) (f : Unit → α) (key : String)
    (bypass cacheRead : Bool) (ttl : Option Int) (cs : CacheState α) (stats : CacheStats)
    (hskip : ∀ a, cfg.skipCacheFunc a = false) :
    (decoratorCall cfg f key bypass true cacheRead true ttl cs stats).value = f () ∧
    (decoratorCall cfg f key bypass true cacheRead true ttl cs stats).fCalls = 1 ∧
    (decoratorCall cfg f key bypass true cacheRead true ttl cs stats).stats.hits
      = stats.hits ∧
    (decoratorCall cfg f key bypass true cacheRead true ttl cs stats).stats.misses
      = stats.misses ∧
    (cs.setRaises = false →
      ((decoratorCall cfg f key bypass true cacheRead true ttl cs
          stats).state.entries.lookup key
        = some (f (), ttl.getD (calculate_ttl cfg (f ()))) ∧
      ∀ k, k ≠ key →
        (decoratorCall cfg f key bypass true cacheRead true ttl cs
            stats).state.entries.lookup k
          = cs.entries.lookup k)) ∧
    (cs.setRaises = true →
      (decoratorCall cfg f key bypass true cacheRead true ttl cs stats).state = cs) := by
  simp only [decoratorCall, Bool.or_true, hskip, Bool.not_false, Bool.true_and,
    Bool.and_true, Bool.true_or, eq_self_iff_true, if_true]
  refine ⟨trivial, trivial, ?_, ?_, ?_, ?_⟩
  · cases htr : cfg.trackStats <;> simp [htr]
  · cases htr : cfg.trackStats <;> simp [htr]
  · intro hraise
    constructor
    · simp only [set_in_cache, hraise, Bool.false_eq_true, if_false, Option.getD_some]
      rw [alSet_lookup_self]
      cases ttl <;> rfl
    · intro k hk
      simp only [set_in_cache, hraise, Bool.false_eq_true, if_false, Option.getD_some]
      exact alSet_lookup_ne _ _ _ _ hk
  · intro hraise
    simp [set_in_cache, hraise]

/-- Witness for C6 (amended): one call with an empty working cache and one
with a failing store, via the resolver configuration. -/
theorem force_refresh_spec_witness :
    (decoratorCall cfgInt (fun _ => (42 : Int)) "k" false true true true none
      ⟨[], false⟩ ⟨0, 0, 0⟩).value = 42 ∧
    (decoratorCall cfgInt (fun _ => (42 : Int)) "k" false true true true none
      ⟨[], false⟩ ⟨0, 0, 0⟩).fCalls = 1 ∧
    (decoratorCall cfgInt (fun _ => (42 : Int)) "k" false true true true none
      ⟨[], false⟩ ⟨0, 0, 0⟩).state.entries.lookup "k" = some (42, 86400) ∧
    (decoratorCall cfgInt (fun _ => (42 : Int)) "k" false true true true none
      ⟨[], true⟩ ⟨0, 0, 0⟩).state = ⟨[], true⟩ ∧
    (decoratorCall cfgInt (fun _ => (42 : Int)) "k" false true true true none
      ⟨[], true⟩ ⟨0, 0, 0⟩).value = 42 := by
  have h1 := force_refresh_spec cfgInt (fun _ => (42 : Int)) "k" false true none
    ⟨[], false⟩ ⟨0, 0, 0⟩ (fun a => rfl)
  have h2 := force_refresh_spec cfgInt (fun _ => (42 : Int)) "k" false true none
    ⟨[], true⟩ ⟨0, 0, 0⟩ (fun a => rfl)
  refine ⟨h1.1, h1.2.1, ?_, h2.2.2.2.2.2 rfl, h2.1⟩
  have h5 := (h1.2.2.2.2.1 rfl).1
  simpa [calculate_ttl, cfgInt] using h5
